import Mathlib

/-!
Verification of the autofix-dojo upgrade-planning and remediation pipeline.

The definitions below are shallow embeddings of the Python sources:
  autofix/helm/roadmap.py  (roadmap planner and breaking-change data)
  autofix/helm/scanner.py  (release priority classification)
  autofix/fixer.py         (semantic version parsing)
  autofix/cli.py           (step advisor and remediation executor)
Python dicts that are iterated in insertion order are embedded as
association lists in the same order; Python int values that can go
negative are embedded as Int, counters as Nat; fallible parsing is
embedded with Option.
-/

/-! ## Roadmap planner (autofix/helm/roadmap.py) -/

/-- A single step in an upgrade path (class UpgradeStep). -/
structure UpgradeStep where
  from_version : String
  to_version : String
  breaking_changes : List String
  notes : String
  risk : String
deriving Repr, DecidableEq, Inhabited

/-- Complete upgrade roadmap for a Helm chart (class UpgradeRoadmap). -/
structure UpgradeRoadmap where
  chart : String
  current_version : String
  target_version : String
  steps : List UpgradeStep
  total_breaking_changes : Nat
  estimated_time_minutes : Nat
deriving Repr, DecidableEq, Inhabited

/-- One entry of the breaking-change database. -/
structure BCInfo where
  breaking_changes : List String
  risk : String
  notes : String
deriving Repr, DecidableEq, Inhabited

/-- Value of a list of decimal digit characters. -/
def digitsVal (cs : List Char) : Nat :=
  cs.foldl (fun n c => 10 * n + (c.toNat - 48)) 0

/-- Python int(s) on a string of decimal digits: at least one digit, digits only.
(Signs are handled separately where the source can see them.) -/
def digitsToNat (cs : List Char) : Option Nat :=
  if !cs.isEmpty && cs.all Char.isDigit then some (digitsVal cs) else none

/-- Python str.split on a single separator character: all segments, empty
segments included (split of the empty text is one empty segment). -/
def splitOnChar (sep : Char) : List Char → List (List Char)
  | [] => [[]]
  | c :: rest =>
    if c == sep then [] :: splitOnChar sep rest
    else
      match splitOnChar sep rest with
      | s :: ss => (c :: s) :: ss
      | [] => [[c]]

/-- Run int() on every segment, failing if any segment fails. -/
def intSegments : List (List Char) → Option (List Nat)
  | [] => some []
  | seg :: rest =>
    match digitsToNat seg, intSegments rest with
    | some n, some ns => some (n :: ns)
    | _, _ => none

/-- roadmap._parse_version: strip leading "v" characters, keep the part before
the first "-", split on ".", convert each segment with int(); any failing
segment raises, which the caller treats as an unparseable version. -/
def _parse_version (version : String) : Option (List Nat) :=
  let clean := (version.data.dropWhile (fun c => c == 'v')).takeWhile
    (fun c => c != '-')
  intSegments (splitOnChar '.' clean)

/-- Python tuple comparison on int tuples (lexicographic, a strict prefix is
smaller). -/
def listLex : List Nat → List Nat → Bool
  | [], [] => false
  | [], _ :: _ => true
  | _ :: _, [] => false
  | a :: as, b :: bs => if a < b then true else if b < a then false else listLex as bs

/-- roadmap._version_in_range: s < v <= e on parsed tuples, False when any of
the three versions fails to parse. -/
def _version_in_range (version start stop : String) : Bool :=
  match _parse_version version, _parse_version start, _parse_version stop with
  | some v, some s, some e => listLex s v && (listLex v e || decide (v = e))
  | _, _, _ => false

/-- The body of the per-step scan over the breaking-change entries: extend the
change list, raise the risk (high beats medium beats low), keep the last
non-empty notes. -/
def bcScan (current next : String) (acc : List String × String × String)
    (entry : String × BCInfo) : List String × String × String :=
  let (changes, risk, notes) := acc
  if _version_in_range entry.1 current next then
    let changes := changes ++ entry.2.breaking_changes
    let risk :=
      if entry.2.risk == "high" then "high"
      else if entry.2.risk == "medium" && risk != "high" then "medium"
      else risk
    let notes := if entry.2.notes != "" then entry.2.notes else notes
    (changes, risk, notes)
  else (changes, risk, notes)

/-- Build one UpgradeStep of the roadmap loop body. -/
def mkStep (bcs : List (String × BCInfo)) (current next : String) : UpgradeStep :=
  let (changes, risk, notes) := bcs.foldl (bcScan current next) ([], "low", "")
  { from_version := current, to_version := next, breaking_changes := changes,
    notes := notes, risk := risk }

/-- next_version of the loop body: path.get(current), falling back to the
target when absent or falsy (the empty string). -/
def nextHop (path : List (String × String)) (target current : String) : String :=
  match path.lookup current with
  | none => target
  | some s => if s = "" then target else s

/-- The while loop of generate_roadmap. The loop appends one step per
iteration and stops as soon as the step list is longer than 20, so it runs at
most 21 iterations; the fuel argument makes that bound explicit and the entry
point supplies fuel 21, which the cap check keeps from ever reaching 0. -/
def genSteps (path : List (String × String)) (bcs : List (String × BCInfo))
    (target : String) : Nat → String → List UpgradeStep → Nat →
    List UpgradeStep × Nat
  | fuel, current, steps, total =>
    if current = target then (steps, total)
    else
      match fuel with
      | 0 => (steps, total)
      | fuel + 1 =>
        let next := nextHop path target current
        let step := mkStep bcs current next
        let steps := steps ++ [step]
        let total := total + step.breaking_changes.length
        if steps.length > 20 then (steps, total)
        else genSteps path bcs target fuel next steps total

/-- generate_roadmap with the two lookup tables passed explicitly (the Python
function reads them from module-level globals keyed by chart). -/
def generate_roadmap_with (path : List (String × String))
    (bcs : List (String × BCInfo)) (chart current_version target_version : String) :
    UpgradeRoadmap :=
  let (steps, total) := genSteps path bcs target_version 21 current_version [] 0
  { chart := chart, current_version := current_version,
    target_version := target_version, steps := steps,
    total_breaking_changes := total,
    estimated_time_minutes :=
      5 + steps.foldl (fun acc s => acc + (if s.risk = "high" then 10 else 5)) 0
        + total * 2 }

/-- BREAKING_CHANGES_DB, in source insertion order. -/
def BREAKING_CHANGES_DB : List (String × List (String × BCInfo)) :=
  [("velero",
    [("5.0.0",
      { breaking_changes :=
          ["Requires DataUpload/DataDownload CRDs for v1.13+",
           "Configuration structure changes"],
        risk := "high", notes := "Apply CRDs before upgrade" }),
     ("7.0.0",
      { breaking_changes :=
          ["CSI plugin merged into Velero core",
           "Remove velero-plugin-for-csi from initContainers"],
        risk := "high", notes := "Critical if using CSI snapshots" }),
     ("9.0.0",
      { breaking_changes :=
          ["deployRestic renamed to deployNodeAgent",
           "Node-agent architecture changes"],
        risk := "medium", notes := "Update values.yaml accordingly" }),
     ("11.0.0",
      { breaking_changes :=
          ["fs-backup modernized to micro-service architecture",
           "Optional migration from restic to kopia uploader"],
        risk := "medium", notes := "Review fs-backup configuration" })]),
   ("grafana",
    [("10.0.0",
      { breaking_changes :=
          ["Angular deprecated - affects some plugins",
           "Dashboard JSON format changes",
           "New alerting system (Grafana Alerting v2)"],
        risk := "medium", notes := "Test dashboards after upgrade" })]),
   ("sumologic",
    [("4.0.0",
      { breaking_changes :=
          ["New log collection architecture",
           "Fluent Bit replaces FluentD as default",
           "OpenTelemetry-based metrics collection",
           "New values.yaml structure"],
        risk := "high", notes := "Significant configuration changes required" })]),
   ("cert-manager",
    [("1.12.0",
      { breaking_changes := ["Webhook validation changes", "New CRD versions"],
        risk := "medium", notes := "Apply CRDs before upgrade" })]),
   ("ingress-nginx",
    [("4.0.0",
      { breaking_changes :=
          ["Ingress API v1 required (networking.k8s.io/v1)",
           "Deprecated annotations removed"],
        risk := "high", notes := "Update all Ingress resources to v1 API" })]),
   ("aws-load-balancer-controller",
    [("1.5.0",
      { breaking_changes := ["TargetGroupBinding CRD v1beta1 → v1"],
        risk := "medium", notes := "Review TargetGroupBinding resources" })])]

/-- UPGRADE_PATHS, in source insertion order. -/
def UPGRADE_PATHS : List (String × List (String × String)) :=
  [("velero",
    [("4.3.0", "5.4.1"), ("5.4.1", "6.7.0"), ("6.7.0", "7.2.2"),
     ("7.2.2", "8.7.2"), ("8.7.2", "10.1.3"), ("10.1.3", "11.2.0")]),
   ("grafana",
    [("9.2.10", "9.5.0"), ("9.5.0", "10.0.0"), ("10.0.0", "10.3.0")]),
   ("sumologic",
    [("3.19.5", "4.0.0"), ("4.0.0", "4.10.0"), ("4.10.0", "4.18.0")])]

/-- roadmap.generate_roadmap on the built-in tables. -/
def generate_roadmap (chart current_version target_version : String) :
    UpgradeRoadmap :=
  generate_roadmap_with ((UPGRADE_PATHS.lookup chart).getD [])
    ((BREAKING_CHANGES_DB.lookup chart).getD []) chart current_version
    target_version

/-- The roadmap chain property: each step starts where the previous one
ended. -/
def chainOK : List UpgradeStep → Bool
  | [] => true
  | [_] => true
  | a :: b :: rest => a.to_version == b.from_version && chainOK (b :: rest)

/-- The first step, when there is one, starts at the given version. -/
def headFrom (steps : List UpgradeStep) (cur : String) : Bool :=
  match steps.head? with
  | none => true
  | some s => s.from_version == cur

/-- The last step, when there is one, ends at the given version. -/
def linkOK (steps : List UpgradeStep) (cur : String) : Bool :=
  match steps.getLast? with
  | none => true
  | some s => s.to_version == cur

/-- Sum of the lengths of the steps' breaking-change lists. -/
def sumBC (steps : List UpgradeStep) : Nat :=
  (steps.map (fun s => s.breaking_changes.length)).sum

/-- Number of steps whose risk is high. -/
def countHigh (steps : List UpgradeStep) : Nat :=
  steps.countP (fun s => s.risk == "high")

/-! ## Release priority classification (autofix/helm/scanner.py) -/

/-- Python int() on an optionally signed digit string (whitespace and digit
group separators do not occur in the version strings this code handles). -/
def pyInt (cs : List Char) : Option Int :=
  match cs with
  | '-' :: rest => (digitsToNat rest).map (fun n => -(n : Int))
  | '+' :: rest => (digitsToNat rest).map (fun n => (n : Int))
  | _ => (digitsToNat cs).map (fun n => (n : Int))

/-- s.lstrip("v").split(".")[0]: the text before the first dot after
stripping leading v characters. -/
def majorSeg (s : String) : List Char :=
  (s.data.dropWhile (fun c => c == 'v')).takeWhile (fun c => c != '.')

/-- The fields of class HelmRelease read by its version properties (name,
chart, repository, namespace and the source locators play no role in the
outdated/gap/priority computations). -/
structure HelmRelease where
  current_version : String
  latest_version : Option String
deriving Repr, DecidableEq

/-- HelmRelease.is_outdated: False when latest_version is unset or falsy
(the empty string), else current != latest. -/
def HelmRelease.is_outdated (r : HelmRelease) : Bool :=
  match r.latest_version with
  | none => false
  | some l => if l = "" then false else decide (r.current_version ≠ l)

/-- HelmRelease.version_gap: latest major minus current major, 0 when
latest_version is unset or falsy or either major fails int(). -/
def HelmRelease.version_gap (r : HelmRelease) : Int :=
  match r.latest_version with
  | none => 0
  | some l =>
    if l = "" then 0
    else
      match pyInt (majorSeg r.current_version), pyInt (majorSeg l) with
      | some c, some lm => lm - c
      | _, _ => 0

/-- HelmRelease.priority. -/
def HelmRelease.priority (r : HelmRelease) : String :=
  if r.version_gap ≥ 3 then "critical"
  else if r.version_gap ≥ 1 then "major"
  else if r.is_outdated then "minor"
  else "current"

/-! ## Semantic version parsing (autofix/fixer.py) -/

/-- Version triples as built by the advisor's local parse_version. -/
abbrev V3 := Int × Int × Int

/-- Python tuple comparison on version triples (strict lexicographic). -/
def ltV3 (a b : V3) : Bool :=
  decide (a.1 < b.1) ||
    (decide (a.1 = b.1) &&
      (decide (a.2.1 < b.2.1) ||
        (decide (a.2.1 = b.2.1) && decide (a.2.2 < b.2.2))))

/-- Python string comparison: code-point lexicographic order. -/
def charListLt : List Char → List Char → Bool
  | [], [] => false
  | [], _ :: _ => true
  | _ :: _, [] => false
  | a :: as, b :: bs =>
    if a.toNat < b.toNat then true
    else if b.toNat < a.toNat then false
    else charListLt as bs

/-- re.split on the character class dot-or-dash: split at every occurrence,
keeping empty segments. -/
def splitDotDash : List Char → List (List Char)
  | [] => [[]]
  | c :: rest =>
    if c == '.' || c == '-' then [] :: splitDotDash rest
    else
      match splitDotDash rest with
      | s :: ss => (c :: s) :: ss
      | [] => [[c]]

/-- The advisor's local parse_version: strip leading v characters, split on
dots and dashes, int() the first up-to-three segments with missing segments
defaulting to 0; any conversion failure yields (0, 0, 0). -/
def parse_version (v : String) : V3 :=
  let parts := splitDotDash (v.data.dropWhile (fun c => c == 'v'))
  match pyInt (parts.headD []) with
  | none => (0, 0, 0)
  | some a =>
    match parts.get? 1 with
    | none => (a, 0, 0)
    | some p1 =>
      match pyInt p1 with
      | none => (0, 0, 0)
      | some b =>
        match parts.get? 2 with
        | none => (a, b, 0)
        | some p2 =>
          match pyInt p2 with
          | none => (0, 0, 0)
          | some c => (a, b, c)

/-- Python tuple comparison on the (parsed, text) pairs the advisor sorts. -/
def pairLt (a b : V3 × String) : Bool :=
  ltV3 a.1 b.1 || (decide (a.1 = b.1) && charListLt a.2.data b.2.data)

/-- Sorting a list and taking index 0: the earliest element no other
element beats (Python sort is stable, so the first among equal keys). -/
def selectBy {α : Type} (better : α → α → Bool) : List α → Option α
  | [] => none
  | x :: xs =>
    some (xs.foldl (fun best y => if better best y then y else best) x)

/-- The next_major_versions candidate list: (parsed, text) pairs whose
major is current-major plus one, in input order. -/
def nmvList (current : String) (vs : List String) : List (V3 × String) :=
  vs.filterMap (fun v =>
    if (parse_version v).1 = (parse_version current).1 + 1 then
      some (parse_version v, v)
    else none)

/-- The intermediate_versions candidate list: (parsed, text) pairs strictly
between current and latest, in input order. -/
def ivList (current latest : String) (vs : List String) :
    List (V3 × String) :=
  vs.filterMap (fun v =>
    if ltV3 (parse_version current) (parse_version v) &&
        ltV3 (parse_version v) (parse_version latest) then
      some (parse_version v, v)
    else none)

/-- cli._get_next_major_version: same major hands back latest; otherwise the
highest version of major current+1 (sort descending, take index 0);
otherwise the smallest version strictly between current and latest (sort
ascending, take index 0); otherwise latest. -/
def _get_next_major_version (current latest : String)
    (all_versions : List String) : String :=
  if (parse_version current).1 = (parse_version latest).1 then latest
  else
    match selectBy (fun best y => pairLt best y)
        (nmvList current all_versions) with
    | some m => m.2
    | none =>
      match selectBy (fun best y => pairLt y best)
          (ivList current latest all_versions) with
      | some m => m.2
      | none => latest

/-- The claim's first selection rule: v has exactly the next major. -/
def isNextMajorOf (cur v : String) : Prop :=
  (parse_version v).1 = (parse_version cur).1 + 1

/-- The claim's second selection rule: v is strictly above current and at
most latest (as parsed versions). -/
def inHalfOpen (cur lat v : String) : Prop :=
  ltV3 (parse_version cur) (parse_version v) = true ∧
  ltV3 (parse_version lat) (parse_version v) = false

/-! ## Remediation executor (autofix/cli.py) -/

/-- The git working-tree state the executor manipulates: the checked-out
branch and the local branches. -/
structure GitState where
  branch : String
  locals : List String
deriving Repr, DecidableEq

/-- git checkout of an existing branch (the source hardcodes master as the
base branch and ignores the command result). -/
def gitCheckout (st : GitState) (b : String) : GitState :=
  { st with branch := b }

/-- git branch -D: delete the named local branch; a failure for a missing
branch is ignored by the source. -/
def gitBranchDelete (st : GitState) (b : String) : GitState :=
  { st with locals := st.locals.filter (fun x => x != b) }

/-- git checkout -b: create and switch to a new branch (the source deletes
any same-named branch immediately before). -/
def gitCheckoutNew (st : GitState) (b : String) : GitState :=
  { branch := b, locals := b :: st.locals }

/-- The recorded outcome of one remediation unit. -/
inductive UnitOutcome
  | skippedNoFile
  | skippedNoPattern
  | pushFailed
  | prCreated
  | prFailed
deriving Repr, DecidableEq

/-- The external facts that decide one remediation unit's control flow:
whether the source file exists, whether a version pattern matched, whether
the push succeeded, whether PR creation succeeded. -/
structure UnitCase where
  branchName : String
  fileExists : Bool
  patternFound : Bool
  pushOk : Bool
  prOk : Bool
deriving Repr, DecidableEq

/-- One iteration of the loop of _create_individual_prs (the per-tier loop
of _create_batched_prs runs the same checkout-master, delete-branch,
new-branch, edit, commit, push, PR, checkout-master sequence once per
tier): missing file and missing pattern skip before any git mutation; a
push failure returns to master and moves on; after the PR attempt the tree
always returns to master. -/
def processUnit (st : GitState) (u : UnitCase) : GitState × UnitOutcome :=
  if !u.fileExists then (st, .skippedNoFile)
  else if !u.patternFound then (st, .skippedNoPattern)
  else
    let st1 := gitCheckout st "master"
    let st2 := gitBranchDelete st1 u.branchName
    let st3 := gitCheckoutNew st2 u.branchName
    if !u.pushOk then (gitCheckout st3 "master", .pushFailed)
    else
      let st4 := gitCheckout st3 "master"
      if u.prOk then (st4, .prCreated) else (st4, .prFailed)

/-- The outcome a unit's own facts dictate, independently of git state. -/
def unitOutcome (u : UnitCase) : UnitOutcome :=
  if !u.fileExists then .skippedNoFile
  else if !u.patternFound then .skippedNoPattern
  else if !u.pushOk then .pushFailed
  else if u.prOk then .prCreated
  else .prFailed

/-- The executor loop over the units of work of one invocation. -/
def runUnits (st : GitState) : List UnitCase → GitState × List UnitOutcome
  | [] => (st, [])
  | u :: us =>
    let r1 := processUnit st u
    let r2 := runUnits r1.1 us
    (r2.1, r1.2 :: r2.2)

/-- The step-mode target selection of helm_upgrade_pr. The versions list is
the result of scanner.fetch_all_versions, which is absent from the scanned
sources; modelled from the spec: a version-listing failure is caught and
yields an empty list, and the caller then keeps latest as the target. -/
def stepNewVersion (step : Bool) (gap : Int) (current latest : String)
    (fetched : List String) : String :=
  if step && decide (gap > 1) then
    if !fetched.isEmpty then _get_next_major_version current latest fetched
    else latest
  else latest

/-! ## Lemmas about the roadmap loop -/

theorem mkStep_from (bcs : List (String × BCInfo)) (cur next : String) :
    (mkStep bcs cur next).from_version = cur := rfl

theorem mkStep_to (bcs : List (String × BCInfo)) (cur next : String) :
    (mkStep bcs cur next).to_version = next := rfl

theorem linkOK_concat (steps : List UpgradeStep) (step : UpgradeStep)
    (c : String) : linkOK (steps ++ [step]) c = (step.to_version == c) := by
  simp [linkOK, List.getLast?_concat]

theorem chainOK_concat (steps : List UpgradeStep) (cur : String)
    (step : UpgradeStep) (h1 : chainOK steps = true)
    (h2 : linkOK steps cur = true) (h3 : step.from_version = cur) :
    chainOK (steps ++ [step]) = true := by
  induction steps with
  | nil => simp [chainOK]
  | cons a tail ih =>
    cases tail with
    | nil =>
      have h2' : a.to_version = cur := by simpa [linkOK] using h2
      simp [chainOK, h2', h3]
    | cons b rest =>
      simp only [chainOK, Bool.and_eq_true] at h1
      have h2' : linkOK (b :: rest) cur = true := by
        simpa [linkOK, List.getLast?_cons_cons] using h2
      simp only [List.cons_append, chainOK, Bool.and_eq_true]
      exact ⟨h1.1, by simpa [List.cons_append] using ih h1.2 h2'⟩

theorem genSteps_head (path : List (String × String))
    (bcs : List (String × BCInfo)) (target : String) :
    ∀ (fuel : Nat) (cur : String) (s : UpgradeStep) (rest : List UpgradeStep)
      (total : Nat),
      ((genSteps path bcs target fuel cur (s :: rest) total).1).head? = some s := by
  intro fuel
  induction fuel with
  | zero =>
    intro cur s rest total
    rw [genSteps]
    split <;> simp
  | succ fuel ih =>
    intro cur s rest total
    rw [genSteps]
    split
    · simp
    · simp only
      split
      · simp [List.cons_append]
      · rw [List.cons_append]
        exact ih _ _ _ _

theorem genSteps_chain (path : List (String × String))
    (bcs : List (String × BCInfo)) (target : String) :
    ∀ (fuel : Nat) (cur : String) (steps : List UpgradeStep) (total : Nat),
      chainOK steps = true → linkOK steps cur = true →
      chainOK (genSteps path bcs target fuel cur steps total).1 = true := by
  intro fuel
  induction fuel with
  | zero =>
    intro cur steps total h1 h2
    rw [genSteps]
    split <;> simpa using h1
  | succ fuel ih =>
    intro cur steps total h1 h2
    rw [genSteps]
    split
    · simpa using h1
    · simp only
      split
      · exact chainOK_concat steps cur _ h1 h2 (mkStep_from ..)
      · exact ih _ _ _ (chainOK_concat steps cur _ h1 h2 (mkStep_from ..))
          (by simp [linkOK_concat, mkStep_to])

theorem genSteps_headFrom (path : List (String × String))
    (bcs : List (String × BCInfo)) (target : String) (fuel : Nat) (cur : String)
    (total : Nat) :
    headFrom (genSteps path bcs target fuel cur [] total).1 cur = true := by
  cases fuel with
  | zero =>
    rw [genSteps]
    split <;> simp [headFrom]
  | succ fuel =>
    rw [genSteps]
    split
    · simp [headFrom]
    · simp only
      split
      · simp [headFrom, mkStep_from]
      · simp only [List.nil_append]
        unfold headFrom
        rw [genSteps_head]
        simp [mkStep_from]

theorem genSteps_length (path : List (String × String))
    (bcs : List (String × BCInfo)) (target : String) :
    ∀ (fuel : Nat) (cur : String) (steps : List UpgradeStep) (total : Nat),
      steps.length ≤ 20 →
      (genSteps path bcs target fuel cur steps total).1.length ≤ 21 := by
  intro fuel
  induction fuel with
  | zero =>
    intro cur steps total h
    rw [genSteps]
    split <;> simp <;> omega
  | succ fuel ih =>
    intro cur steps total h
    rw [genSteps]
    split
    · simpa using Nat.le_trans h (by omega)
    · simp only
      split
      · simpa using by omega
      · rename_i hcap
        refine ih _ _ _ ?_
        simp only [List.length_append, List.length_singleton] at hcap ⊢
        omega

theorem sumBC_concat (steps : List UpgradeStep) (step : UpgradeStep) :
    sumBC (steps ++ [step]) = sumBC steps + step.breaking_changes.length := by
  simp [sumBC]

theorem genSteps_total (path : List (String × String))
    (bcs : List (String × BCInfo)) (target : String) :
    ∀ (fuel : Nat) (cur : String) (steps : List UpgradeStep) (total : Nat),
      (genSteps path bcs target fuel cur steps total).2 + sumBC steps =
        total + sumBC (genSteps path bcs target fuel cur steps total).1 := by
  intro fuel
  induction fuel with
  | zero =>
    intro cur steps total
    rw [genSteps]
    split <;> simp
  | succ fuel ih =>
    intro cur steps total
    rw [genSteps]
    split
    · simp
    · simp only
      split
      · simp [sumBC_concat]; omega
      · have h := ih (nextHop path target cur)
          (steps ++ [mkStep bcs cur (nextHop path target cur)])
          (total + (mkStep bcs cur (nextHop path target cur)).breaking_changes.length)
        rw [sumBC_concat] at h
        omega

theorem chainOK_getD : ∀ (l : List UpgradeStep), chainOK l = true →
    ∀ i, i + 1 < l.length →
    (l.getD i default).to_version = (l.getD (i + 1) default).from_version := by
  intro l
  induction l with
  | nil => intro _ i h; simp at h
  | cons a tail ih =>
    intro hc i h
    cases tail with
    | nil => simp at h
    | cons b rest =>
      simp only [chainOK, Bool.and_eq_true, beq_iff_eq] at hc
      cases i with
      | zero => simpa using hc.1
      | succ j =>
        have h' : j + 1 < (b :: rest).length := by
          simpa using Nat.lt_of_succ_lt_succ h
        simpa [List.getD_cons_succ] using ih hc.2 j h'

theorem timeFold : ∀ (l : List UpgradeStep) (a : Nat),
    l.foldl (fun acc s => acc + (if s.risk = "high" then 10 else 5)) a =
      a + 10 * countHigh l + 5 * (l.length - countHigh l) := by
  intro l
  induction l with
  | nil => intro a; simp [countHigh]
  | cons s tail ih =>
    intro a
    have hle : tail.countP (fun s => s.risk == "high") ≤ tail.length :=
      List.countP_le_length _
    simp only [List.foldl_cons]
    rw [ih]
    by_cases h : s.risk = "high"
    · simp [countHigh, List.countP_cons, h]
      omega
    · simp [countHigh, List.countP_cons, h]
      omega

theorem roadmap_steps_def (path : List (String × String))
    (bcs : List (String × BCInfo)) (chart cur tgt : String) :
    (generate_roadmap_with path bcs chart cur tgt).steps =
      (genSteps path bcs tgt 21 cur [] 0).1 := rfl

theorem roadmap_total_def (path : List (String × String))
    (bcs : List (String × BCInfo)) (chart cur tgt : String) :
    (generate_roadmap_with path bcs chart cur tgt).total_breaking_changes =
      (genSteps path bcs tgt 21 cur [] 0).2 := rfl

theorem roadmap_time_def (path : List (String × String))
    (bcs : List (String × BCInfo)) (chart cur tgt : String) :
    (generate_roadmap_with path bcs chart cur tgt).estimated_time_minutes =
      5 + (genSteps path bcs tgt 21 cur [] 0).1.foldl
          (fun acc s => acc + (if s.risk = "high" then 10 else 5)) 0
        + (genSteps path bcs tgt 21 cur [] 0).2 * 2 := rfl

theorem generate_roadmap_eq (chart cur tgt : String) :
    generate_roadmap chart cur tgt =
      generate_roadmap_with ((UPGRADE_PATHS.lookup chart).getD [])
        ((BREAKING_CHANGES_DB.lookup chart).getD []) chart cur tgt := rfl

/-! ## Claim theorems for the roadmap planner -/

/-- C1 (counterexample): at the claimed input velero 4.3.0 to 11.2.0, the
roadmap does have 6 steps and its first step does go from 4.3.0 to 5.4.1, but
that first step crosses the 5.0.0 breaking-change marker, so its
breaking-change list is not empty and its risk is not low; the claim as a
whole is false at this input. -/
theorem roadmap_velero_first_step_cex :
    ¬ ((generate_roadmap "velero" "4.3.0" "11.2.0").steps.length = 6 ∧
       ((generate_roadmap "velero" "4.3.0" "11.2.0").steps.headD
          default).from_version = "4.3.0" ∧
       ((generate_roadmap "velero" "4.3.0" "11.2.0").steps.headD
          default).to_version = "5.4.1" ∧
       ((generate_roadmap "velero" "4.3.0" "11.2.0").steps.headD
          default).breaking_changes = [] ∧
       ((generate_roadmap "velero" "4.3.0" "11.2.0").steps.headD
          default).risk = "low") := by
  decide

/-- C1 (amended): generate_roadmap("velero", "4.3.0", "11.2.0") returns a
roadmap of exactly 6 steps whose first step goes from 4.3.0 to 5.4.1 and
carries the two 5.0.0 breaking changes of the built-in table, risk high. -/
theorem roadmap_velero_first_step :
    (generate_roadmap "velero" "4.3.0" "11.2.0").steps.length = 6 ∧
    (generate_roadmap "velero" "4.3.0" "11.2.0").steps.headD default =
      { from_version := "4.3.0", to_version := "5.4.1",
        breaking_changes :=
          ["Requires DataUpload/DataDownload CRDs for v1.13+",
           "Configuration structure changes"],
        notes := "Apply CRDs before upgrade", risk := "high" } := by
  decide

/-- C2 (counterexample): with the cyclic recommended-path table A to B to A
and target C, the returned roadmap does not have exactly 20 steps (the cap
check runs only after a step is appended, so the loop stops at 21 steps). -/
theorem roadmap_cyclic_not_twenty :
    ¬ ((generate_roadmap_with [("A", "B"), ("B", "A")] [] "chart" "A"
        "C").steps.length = 20) := by
  decide

/-- C2 (amended): generate_roadmap always terminates with at most 21 steps,
and with a cyclic recommended-path table that never reaches the target the
returned roadmap contains exactly 21 steps. -/
theorem roadmap_terminates_capped :
    (∀ (path : List (String × String)) (bcs : List (String × BCInfo))
        (chart cur tgt : String),
        (generate_roadmap_with path bcs chart cur tgt).steps.length ≤ 21) ∧
    (generate_roadmap_with [("A", "B"), ("B", "A")] [] "chart" "A"
        "C").steps.length = 21 := by
  constructor
  · intro path bcs chart cur tgt
    rw [roadmap_steps_def]
    exact genSteps_length path bcs tgt 21 cur [] 0 (by simp)
  · decide

/-- C3: in every roadmap returned by generate_roadmap, each step's to_version
equals the next step's from_version, and whenever at least one step exists
the first step starts at the requested current version (the head clause is
unconditional: headFrom holds vacuously for the empty step list and pins
the first step's from_version otherwise, also for one-step roadmaps). -/
theorem roadmap_chain_claim (chart cur tgt : String) :
    (∀ i, i + 1 < (generate_roadmap chart cur tgt).steps.length →
      ((generate_roadmap chart cur tgt).steps.getD i default).to_version =
        ((generate_roadmap chart cur tgt).steps.getD (i + 1)
          default).from_version) ∧
    headFrom (generate_roadmap chart cur tgt).steps cur = true := by
  rw [generate_roadmap_eq, roadmap_steps_def]
  constructor
  · intro i h
    refine chainOK_getD _ ?_ i h
    exact genSteps_chain _ _ _ 21 cur [] 0 rfl rfl
  · exact genSteps_headFrom _ _ _ 21 cur 0

/-- C3 (witness): the chain equation at index 0 of the six-step velero
roadmap, and the head clause both there and on a one-step roadmap (a chart
absent from the tables), where the inner hypothesis is unsatisfiable but
the head clause still applies. -/
theorem roadmap_chain_claim_witness :
    ((generate_roadmap "velero" "4.3.0" "11.2.0").steps.getD 0
        default).to_version =
      ((generate_roadmap "velero" "4.3.0" "11.2.0").steps.getD 1
        default).from_version ∧
    headFrom (generate_roadmap "velero" "4.3.0" "11.2.0").steps "4.3.0" =
      true ∧
    (generate_roadmap "nosuch" "1.0.0" "2.0.0").steps.length = 1 ∧
    headFrom (generate_roadmap "nosuch" "1.0.0" "2.0.0").steps "1.0.0" =
      true :=
  ⟨(roadmap_chain_claim "velero" "4.3.0" "11.2.0").1 0 (by decide),
   (roadmap_chain_claim "velero" "4.3.0" "11.2.0").2,
   by decide,
   (roadmap_chain_claim "nosuch" "1.0.0" "2.0.0").2⟩

/-- C8: in every roadmap returned by generate_roadmap,
total_breaking_changes is the sum of the step breaking-change list lengths,
and estimated_time_minutes is 5 plus 10 per high-risk step plus 5 per other
step plus 2 per breaking change. -/
theorem roadmap_totals_claim (chart cur tgt : String) :
    (generate_roadmap chart cur tgt).total_breaking_changes =
      sumBC (generate_roadmap chart cur tgt).steps ∧
    (generate_roadmap chart cur tgt).estimated_time_minutes =
      5 + 10 * countHigh (generate_roadmap chart cur tgt).steps
        + 5 * ((generate_roadmap chart cur tgt).steps.length -
            countHigh (generate_roadmap chart cur tgt).steps)
        + 2 * (generate_roadmap chart cur tgt).total_breaking_changes := by
  rw [generate_roadmap_eq]
  have htot := genSteps_total ((UPGRADE_PATHS.lookup chart).getD [])
    ((BREAKING_CHANGES_DB.lookup chart).getD []) tgt 21 cur [] 0
  have htot' : (genSteps ((UPGRADE_PATHS.lookup chart).getD [])
      ((BREAKING_CHANGES_DB.lookup chart).getD []) tgt 21 cur [] 0).2 =
      sumBC (genSteps ((UPGRADE_PATHS.lookup chart).getD [])
        ((BREAKING_CHANGES_DB.lookup chart).getD []) tgt 21 cur [] 0).1 := by
    simpa [sumBC] using htot
  refine ⟨by rw [roadmap_total_def, roadmap_steps_def, htot'], ?_⟩
  rw [roadmap_time_def, roadmap_steps_def, roadmap_total_def, htot', timeFold]
  omega

/-- C10: a roadmap whose target equals the current version has no steps, no
breaking changes, and the base time estimate of 5 minutes. -/
theorem roadmap_self_claim (chart v : String) :
    (generate_roadmap chart v v).steps = [] ∧
    (generate_roadmap chart v v).total_breaking_changes = 0 ∧
    (generate_roadmap chart v v).estimated_time_minutes = 5 := by
  rw [generate_roadmap_eq]
  have h : genSteps ((UPGRADE_PATHS.lookup chart).getD [])
      ((BREAKING_CHANGES_DB.lookup chart).getD []) v 21 v [] 0 = ([], 0) := by
    rw [genSteps]
    simp
  refine ⟨?_, ?_, ?_⟩
  · rw [roadmap_steps_def, h]
  · rw [roadmap_total_def, h]
  · rw [roadmap_time_def, h]
    simp

/-! ## Claim theorems for priority classification -/

/-- C4 (counterexample): a release whose latest major is below its current
major (current 5.0.0, latest 3.0.0, gap -2) is classified "minor" by the
code, while the claim's final clause would classify it "current". -/
theorem priority_negative_gap_cex :
    HelmRelease.priority
      { current_version := "5.0.0", latest_version := some "3.0.0" } =
      "minor" ∧
    HelmRelease.version_gap
      { current_version := "5.0.0", latest_version := some "3.0.0" } = -2 ∧
    ¬ (HelmRelease.priority
      { current_version := "5.0.0", latest_version := some "3.0.0" } =
      "current") := by
  decide

/-- C4 (amended): for releases whose current and latest majors parse, gap at
least 3 gives critical, gap 1 or 2 gives major, gap at most 0 with a latest
that differs from current gives minor (this includes negative gaps, not only
gap 0), latest equal to current gives current; and a release with no
resolved latest version is always current. -/
theorem priority_classification (cur lat : String) (c l : Int)
    (hc : pyInt (majorSeg cur) = some c) (hl : pyInt (majorSeg lat) = some l) :
    (l - c ≥ 3 →
      HelmRelease.priority { current_version := cur, latest_version := some lat } =
        "critical") ∧
    (1 ≤ l - c ∧ l - c ≤ 2 →
      HelmRelease.priority { current_version := cur, latest_version := some lat } =
        "major") ∧
    (l - c ≤ 0 ∧ lat ≠ cur →
      HelmRelease.priority { current_version := cur, latest_version := some lat } =
        "minor") ∧
    (lat = cur →
      HelmRelease.priority { current_version := cur, latest_version := some lat } =
        "current") ∧
    (∀ cv : String,
      HelmRelease.priority { current_version := cv, latest_version := none } =
        "current") := by
  have hlat : lat ≠ "" := by
    intro h
    subst h
    simp [majorSeg, pyInt, digitsToNat] at hl
  have hgap : HelmRelease.version_gap
      { current_version := cur, latest_version := some lat } = l - c := by
    simp [HelmRelease.version_gap, hlat, hc, hl]
  refine ⟨?_, ?_, ?_, ?_, ?_⟩
  · intro h
    simp [HelmRelease.priority, hgap, h]
  · intro h
    rw [HelmRelease.priority, hgap, if_neg (by omega), if_pos (by omega)]
  · intro h
    rw [HelmRelease.priority, hgap, if_neg (by omega), if_neg (by omega)]
    have hout : HelmRelease.is_outdated
        { current_version := cur, latest_version := some lat } = true := by
      simp [HelmRelease.is_outdated, hlat]
      exact fun hcl => h.2 hcl.symm
    rw [if_pos hout]
  · intro h
    subst h
    have hlc : l = c := by
      rw [hc] at hl
      exact (Option.some_injective _ hl).symm
    rw [HelmRelease.priority, hgap, hlc]
    rw [if_neg (by omega), if_neg (by omega), if_neg (by simp [HelmRelease.is_outdated])]
  · intro cv
    simp [HelmRelease.priority, HelmRelease.version_gap, HelmRelease.is_outdated]

/-- C4 (witness): the classification applied to current 2.0.0, latest 5.1.0
(gap 3, critical). -/
theorem priority_classification_witness :
    pyInt (majorSeg "2.0.0") = some 2 ∧ pyInt (majorSeg "5.1.0") = some 5 ∧
    (((5 : Int) - 2 ≥ 3 →
      HelmRelease.priority
        { current_version := "2.0.0", latest_version := some "5.1.0" } =
        "critical") ∧
    (1 ≤ (5 : Int) - 2 ∧ (5 : Int) - 2 ≤ 2 →
      HelmRelease.priority
        { current_version := "2.0.0", latest_version := some "5.1.0" } =
        "major") ∧
    ((5 : Int) - 2 ≤ 0 ∧ "5.1.0" ≠ "2.0.0" →
      HelmRelease.priority
        { current_version := "2.0.0", latest_version := some "5.1.0" } =
        "minor") ∧
    ("5.1.0" = "2.0.0" →
      HelmRelease.priority
        { current_version := "2.0.0", latest_version := some "5.1.0" } =
        "current") ∧
    (∀ cv : String,
      HelmRelease.priority { current_version := cv, latest_version := none } =
        "current")) :=
  ⟨by decide, by decide,
    priority_classification "2.0.0" "5.1.0" 2 5 (by decide) (by decide)⟩

/-! ## Lemmas about digit runs and the version-shape characterization -/

theorem ltV3_irrefl (a : V3) : ltV3 a a = false := by
  simp [ltV3]

theorem ltV3_trans {a b c : V3} (h1 : ltV3 a b = true)
    (h2 : ltV3 b c = true) : ltV3 a c = true := by
  rcases a with ⟨a1, a2, a3⟩
  rcases b with ⟨b1, b2, b3⟩
  rcases c with ⟨c1, c2, c3⟩
  simp only [ltV3, Bool.or_eq_true, Bool.and_eq_true,
    decide_eq_true_eq] at h1 h2 ⊢
  omega

theorem ltV3_asym {a b : V3} (h : ltV3 a b = true) : ltV3 b a = false := by
  cases hba : ltV3 b a with
  | false => rfl
  | true =>
    have := ltV3_trans h hba
    rw [ltV3_irrefl] at this
    exact absurd this (by simp)

theorem ltV3_total {a b : V3} (h1 : ltV3 a b = false)
    (h2 : ltV3 b a = false) : a = b := by
  rcases a with ⟨a1, a2, a3⟩
  rcases b with ⟨b1, b2, b3⟩
  have h1' : ¬ (ltV3 (a1, a2, a3) (b1, b2, b3) = true) := by simp [h1]
  have h2' : ¬ (ltV3 (b1, b2, b3) (a1, a2, a3) = true) := by simp [h2]
  simp only [ltV3, Bool.or_eq_true, Bool.and_eq_true,
    decide_eq_true_eq] at h1' h2'
  have he : a1 = b1 ∧ a2 = b2 ∧ a3 = b3 := by omega
  rw [he.1, he.2.1, he.2.2]

theorem charListLt_irrefl : ∀ (l : List Char), charListLt l l = false := by
  intro l
  induction l with
  | nil => rfl
  | cons c cs ih => simp [charListLt, ih]

theorem charListLt_trans : ∀ (a b c : List Char),
    charListLt a b = true → charListLt b c = true →
    charListLt a c = true := by
  intro a
  induction a with
  | nil =>
    intro b c h1 h2
    cases b with
    | nil => simp [charListLt] at h1
    | cons bh bt =>
      cases c with
      | nil => simp [charListLt] at h2
      | cons ch ct => simp [charListLt]
  | cons ah atl ih =>
    intro b c h1 h2
    cases b with
    | nil => simp [charListLt] at h1
    | cons bh bt =>
      cases c with
      | nil => simp [charListLt] at h2
      | cons ch ct =>
        simp only [charListLt] at h1 h2 ⊢
        by_cases x1 : ah.toNat < bh.toNat
        · by_cases x2 : bh.toNat < ch.toNat
          · simp [Nat.lt_trans x1 x2]
          · by_cases x3 : ch.toNat < bh.toNat
            · simp [x2, x3] at h2
            · have hx : ah.toNat < ch.toNat := by omega
              simp [hx]
        · by_cases x4 : bh.toNat < ah.toNat
          · simp [x1, x4] at h1
          · by_cases x2 : bh.toNat < ch.toNat
            · have hx : ah.toNat < ch.toNat := by omega
              simp [hx]
            · by_cases x3 : ch.toNat < bh.toNat
              · simp [x2, x3] at h2
              · have e1 : ¬ ah.toNat < ch.toNat := by omega
                have e2 : ¬ ch.toNat < ah.toNat := by omega
                simp only [x1, x4, if_neg] at h1
                simp only [x2, x3, if_neg] at h2
                simp only [e1, e2, if_neg]
                exact ih bt ct h1 h2

theorem charListLt_total : ∀ (a b : List Char), charListLt a b = false →
    charListLt b a = false → a = b := by
  intro a
  induction a with
  | nil =>
    intro b h1 _
    cases b with
    | nil => rfl
    | cons bh bt => simp [charListLt] at h1
  | cons ah atl ih =>
    intro b h1 h2
    cases b with
    | nil => simp [charListLt] at h2
    | cons bh bt =>
      simp only [charListLt] at h1 h2
      by_cases x1 : ah.toNat < bh.toNat
      · simp [x1] at h1
      · by_cases x2 : bh.toNat < ah.toNat
        · simp [x1, x2] at h2
        · simp only [x1, x2, if_neg] at h1 h2
          have hnat : ah.toNat = bh.toNat := by omega
          have hh : ah = bh := Char.eq_of_val_eq (UInt32.ext hnat)
          rw [hh, ih bt h1 h2]

theorem pairLt_irrefl (a : V3 × String) : pairLt a a = false := by
  simp [pairLt, ltV3_irrefl, charListLt_irrefl]

theorem pairLt_trans {a b c : V3 × String} (h1 : pairLt a b = true)
    (h2 : pairLt b c = true) : pairLt a c = true := by
  simp only [pairLt, Bool.or_eq_true, Bool.and_eq_true,
    decide_eq_true_eq] at h1 h2 ⊢
  rcases h1 with h1 | ⟨h1e, h1s⟩ <;> rcases h2 with h2 | ⟨h2e, h2s⟩
  · exact Or.inl (ltV3_trans h1 h2)
  · exact Or.inl (by rw [← h2e]; exact h1)
  · exact Or.inl (by rw [h1e]; exact h2)
  · exact Or.inr ⟨h1e.trans h2e, charListLt_trans _ _ _ h1s h2s⟩

theorem pairLt_asym {a b : V3 × String} (h : pairLt a b = true) :
    pairLt b a = false := by
  cases hba : pairLt b a with
  | false => rfl
  | true =>
    have := pairLt_trans h hba
    rw [pairLt_irrefl] at this
    exact absurd this (by simp)

theorem pairLt_comp_false {a b : V3 × String} (h : pairLt a b = false) :
    ltV3 a.1 b.1 = false ∧
    (a.1 = b.1 → charListLt a.2.data b.2.data = false) := by
  cases hx : ltV3 a.1 b.1 with
  | false =>
    refine ⟨rfl, fun he => ?_⟩
    cases hy : charListLt a.2.data b.2.data with
    | false => rfl
    | true =>
      rw [pairLt, hx, hy] at h
      simp [he] at h
  | true =>
    rw [pairLt, hx] at h
    simp at h

theorem pairLt_total {a b : V3 × String} (h1 : pairLt a b = false)
    (h2 : pairLt b a = false) : a = b := by
  have c1 := pairLt_comp_false h1
  have c2 := pairLt_comp_false h2
  have he : a.1 = b.1 := ltV3_total c1.1 c2.1
  have hs : a.2.data = b.2.data :=
    charListLt_total _ _ (c1.2 he) (c2.2 he.symm)
  rcases a with ⟨av, ⟨as⟩⟩
  rcases b with ⟨bv, ⟨bs⟩⟩
  simp only at he hs
  rw [he, hs]

theorem pairLt_negtrans {a b c : V3 × String} (h1 : pairLt a b = false)
    (h2 : pairLt b c = false) : pairLt a c = false := by
  cases hac : pairLt a c with
  | false => rfl
  | true =>
    cases hba : pairLt b a with
    | true =>
      have := pairLt_trans hba hac
      exact absurd this (by simp [h2])
    | false =>
      have hab := pairLt_total h1 hba
      rw [hab] at hac
      exact absurd hac (by simp [h2])

theorem foldl_choice_mem {α : Type} (f : α → α → Bool) :
    ∀ (xs : List α) (x : α),
      xs.foldl (fun best y => if f best y then y else best) x ∈ x :: xs := by
  intro xs
  induction xs with
  | nil => intro x; simp
  | cons y ys ih =>
    intro x
    simp only [List.foldl_cons]
    by_cases h : f x y = true
    · rw [if_pos h]
      have hm := ih y
      simp only [List.mem_cons] at hm ⊢
      tauto
    · rw [if_neg h]
      have hm := ih x
      simp only [List.mem_cons] at hm ⊢
      tauto

theorem foldl_choice_spec {α : Type} (f : α → α → Bool)
    (hirr : ∀ a, f a a = false)
    (hasym : ∀ a b, f a b = true → f b a = false)
    (hneg : ∀ a b c, f a b = false → f b c = false → f a c = false) :
    ∀ (xs : List α) (x z : α), z ∈ x :: xs →
      f (xs.foldl (fun best y => if f best y then y else best) x) z =
        false := by
  intro xs
  induction xs with
  | nil =>
    intro x z hz
    simp only [List.mem_cons, List.not_mem_nil, or_false] at hz
    rw [hz]
    simpa using hirr x
  | cons y ys ih =>
    intro x z hz
    simp only [List.foldl_cons]
    simp only [List.mem_cons] at hz
    by_cases h : f x y = true
    · rw [if_pos h]
      rcases hz with hzx | hzy | hm
      · have hby : f (ys.foldl (fun best y => if f best y then y else best) y)
            y = false := ih y y (by simp)
        have hyx : f y x = false := hasym _ _ h
        rw [hzx]
        exact hneg _ _ _ hby hyx
      · rw [hzy]
        exact ih y y (by simp)
      · exact ih y z (by simp [hm])
    · rw [if_neg h]
      have hxy : f x y = false := by simpa using h
      rcases hz with hzx | hzy | hm
      · rw [hzx]
        exact ih x x (by simp)
      · have hbx : f (ys.foldl (fun best y => if f best y then y else best) x)
            x = false := ih x x (by simp)
        rw [hzy]
        exact hneg _ _ _ hbx hxy
      · exact ih x z (by simp [hm])

theorem selectBy_mem {α : Type} (f : α → α → Bool) (l : List α) (m : α)
    (h : selectBy f l = some m) : m ∈ l := by
  cases l with
  | nil => simp [selectBy] at h
  | cons x xs =>
    simp only [selectBy, Option.some_inj] at h
    rw [← h]
    exact foldl_choice_mem f xs x

theorem selectBy_spec {α : Type} (f : α → α → Bool)
    (hirr : ∀ a, f a a = false)
    (hasym : ∀ a b, f a b = true → f b a = false)
    (hneg : ∀ a b c, f a b = false → f b c = false → f a c = false)
    (l : List α) (m : α) (h : selectBy f l = some m) :
    ∀ z ∈ l, f m z = false := by
  cases l with
  | nil => simp [selectBy] at h
  | cons x xs =>
    simp only [selectBy, Option.some_inj] at h
    intro z hz
    rw [← h]
    exact foldl_choice_spec f hirr hasym hneg xs x z hz

theorem selectBy_none {α : Type} (f : α → α → Bool) (l : List α)
    (h : selectBy f l = none) : l = [] := by
  cases l with
  | nil => rfl
  | cons x xs => simp [selectBy] at h

theorem nmvList_mem {current : String} {vs : List String} {q : V3 × String}
    (h : q ∈ nmvList current vs) :
    q.2 ∈ vs ∧ q.1 = parse_version q.2 ∧
    (parse_version q.2).1 = (parse_version current).1 + 1 := by
  simp only [nmvList, List.mem_filterMap] at h
  obtain ⟨v, hv, hf⟩ := h
  by_cases hc : (parse_version v).1 = (parse_version current).1 + 1
  · rw [if_pos hc] at hf
    obtain rfl := Option.some.inj hf
    exact ⟨hv, rfl, hc⟩
  · rw [if_neg hc] at hf
    exact absurd hf (by simp)

theorem nmvList_mem_intro {current v : String} {vs : List String}
    (hv : v ∈ vs)
    (hc : (parse_version v).1 = (parse_version current).1 + 1) :
    (parse_version v, v) ∈ nmvList current vs := by
  simp only [nmvList, List.mem_filterMap]
  exact ⟨v, hv, by rw [if_pos hc]⟩

theorem ivList_mem {current latest : String} {vs : List String}
    {q : V3 × String} (h : q ∈ ivList current latest vs) :
    q.2 ∈ vs ∧ q.1 = parse_version q.2 ∧
    ltV3 (parse_version current) (parse_version q.2) = true ∧
    ltV3 (parse_version q.2) (parse_version latest) = true := by
  simp only [ivList, List.mem_filterMap] at h
  obtain ⟨v, hv, hf⟩ := h
  by_cases hc : (ltV3 (parse_version current) (parse_version v) &&
      ltV3 (parse_version v) (parse_version latest)) = true
  · rw [if_pos hc] at hf
    obtain rfl := Option.some.inj hf
    rw [Bool.and_eq_true] at hc
    exact ⟨hv, rfl, hc.1, hc.2⟩
  · rw [if_neg hc] at hf
    exact absurd hf (by simp)

theorem ivList_mem_intro {current latest v : String} {vs : List String}
    (hv : v ∈ vs)
    (hc1 : ltV3 (parse_version current) (parse_version v) = true)
    (hc2 : ltV3 (parse_version v) (parse_version latest) = true) :
    (parse_version v, v) ∈ ivList current latest vs := by
  simp only [ivList, List.mem_filterMap]
  refine ⟨v, hv, ?_⟩
  rw [if_pos (by rw [Bool.and_eq_true]; exact ⟨hc1, hc2⟩)]

/-! ## Claim theorems for the step advisor -/

/-- C5: when the latest major exceeds the current major, the advisor
returns the highest available version of major current+1 when one exists;
otherwise the smallest available version strictly above current and at most
latest (as parsed versions; when only versions parsing equal to latest
remain, the returned text is latest itself); otherwise latest. -/
theorem step_advisor_claim (current latest : String) (vs : List String)
    (hmaj : (parse_version current).1 < (parse_version latest).1) :
    ((∃ v ∈ vs, isNextMajorOf current v) →
      _get_next_major_version current latest vs ∈ vs ∧
      isNextMajorOf current (_get_next_major_version current latest vs) ∧
      (∀ v ∈ vs, isNextMajorOf current v →
        ltV3 (parse_version (_get_next_major_version current latest vs))
          (parse_version v) = false)) ∧
    ((∀ v ∈ vs, ¬ isNextMajorOf current v) →
      (∃ v ∈ vs, inHalfOpen current latest v) →
      ((_get_next_major_version current latest vs ∈ vs ∨
          _get_next_major_version current latest vs = latest) ∧
        inHalfOpen current latest
          (_get_next_major_version current latest vs) ∧
        (∀ v ∈ vs, inHalfOpen current latest v →
          ltV3 (parse_version v)
            (parse_version (_get_next_major_version current latest vs)) =
            false))) ∧
    ((∀ v ∈ vs, ¬ isNextMajorOf current v) →
      (∀ v ∈ vs, ¬ inHalfOpen current latest v) →
      _get_next_major_version current latest vs = latest) := by
  have hne : ¬ ((parse_version current).1 = (parse_version latest).1) := by
    intro he
    omega
  refine ⟨?_, ?_, ?_⟩
  · rintro ⟨v, hv, hvm⟩
    have hmem : (parse_version v, v) ∈ nmvList current vs :=
      nmvList_mem_intro hv hvm
    cases hsel : selectBy (fun best y => pairLt best y)
        (nmvList current vs) with
    | none =>
      rw [selectBy_none _ _ hsel] at hmem
      exact absurd hmem (List.not_mem_nil _)
    | some m =>
      have hdef : _get_next_major_version current latest vs = m.2 := by
        unfold _get_next_major_version
        rw [if_neg hne, hsel]
      have hq := nmvList_mem (selectBy_mem _ _ _ hsel)
      rw [hdef]
      refine ⟨hq.1, hq.2.2, ?_⟩
      intro w hw hwm
      have hws : pairLt m (parse_version w, w) = false :=
        selectBy_spec (fun best y => pairLt best y)
          (fun a => pairLt_irrefl a)
          (fun a b h => pairLt_asym h)
          (fun a b c h1 h2 => pairLt_negtrans h1 h2)
          _ _ hsel _ (nmvList_mem_intro hw hwm)
      have hlt := (pairLt_comp_false hws).1
      rw [hq.2.1] at hlt
      exact hlt
  · intro hno hex
    have hnil : nmvList current vs = [] := by
      cases hq : nmvList current vs with
      | nil => rfl
      | cons q qs =>
        have hqm : q ∈ nmvList current vs := by
          rw [hq]
          exact List.mem_cons_self _ _
        have hh := nmvList_mem hqm
        exact absurd hh.2.2 (hno _ hh.1)
    have hselnone : selectBy (fun best y => pairLt best y)
        (nmvList current vs) = none := by
      rw [hnil]
      rfl
    cases hsel2 : selectBy (fun best y => pairLt y best)
        (ivList current latest vs) with
    | some m =>
      have hdef : _get_next_major_version current latest vs = m.2 := by
        unfold _get_next_major_version
        rw [if_neg hne, hselnone, hsel2]
      have hq := ivList_mem (selectBy_mem _ _ _ hsel2)
      rw [hdef]
      refine ⟨Or.inl hq.1, ⟨hq.2.2.1, ltV3_asym hq.2.2.2⟩, ?_⟩
      intro w hw hwh
      obtain ⟨hw1, hw2⟩ := hwh
      cases hwl : ltV3 (parse_version w) (parse_version latest) with
      | true =>
        have hws : pairLt (parse_version w, w) m = false :=
          selectBy_spec (fun best y => pairLt y best)
            (fun a => pairLt_irrefl a)
            (fun a b h => pairLt_asym h)
            (fun a b c h1 h2 => pairLt_negtrans h2 h1)
            _ _ hsel2 _ (ivList_mem_intro hw hw1 hwl)
        have hlt := (pairLt_comp_false hws).1
        rw [hq.2.1] at hlt
        exact hlt
      | false =>
        have heq : parse_version w = parse_version latest :=
          ltV3_total hwl hw2
        rw [heq]
        exact ltV3_asym hq.2.2.2
    | none =>
      have hivnil := selectBy_none _ _ hsel2
      have hdef : _get_next_major_version current latest vs = latest := by
        unfold _get_next_major_version
        rw [if_neg hne, hselnone, hsel2]
      rw [hdef]
      refine ⟨Or.inr rfl, ⟨?_, ltV3_irrefl _⟩, ?_⟩
      · simp only [ltV3, Bool.or_eq_true, Bool.and_eq_true,
          decide_eq_true_eq]
        exact Or.inl hmaj
      · intro w hw hwh
        obtain ⟨hw1, hw2⟩ := hwh
        cases hwl : ltV3 (parse_version w) (parse_version latest) with
        | true =>
          have hmemw := ivList_mem_intro hw hw1 hwl
          rw [hivnil] at hmemw
          exact absurd hmemw (List.not_mem_nil _)
        | false => rfl
  · intro hno hno2
    have hnil : nmvList current vs = [] := by
      cases hq : nmvList current vs with
      | nil => rfl
      | cons q qs =>
        have hqm : q ∈ nmvList current vs := by
          rw [hq]
          exact List.mem_cons_self _ _
        have hh := nmvList_mem hqm
        exact absurd hh.2.2 (hno _ hh.1)
    have hivn : ivList current latest vs = [] := by
      cases hq : ivList current latest vs with
      | nil => rfl
      | cons q qs =>
        have hqm : q ∈ ivList current latest vs := by
          rw [hq]
          exact List.mem_cons_self _ _
        have hh := ivList_mem hqm
        exact absurd ⟨hh.2.2.1, ltV3_asym hh.2.2.2⟩ (hno2 _ hh.1)
    unfold _get_next_major_version
    rw [if_neg hne]
    rw [show selectBy (fun best y => pairLt best y) (nmvList current vs) =
      none from by rw [hnil]; rfl]
    rw [show selectBy (fun best y => pairLt y best)
      (ivList current latest vs) = none from by rw [hivn]; rfl]

/-- C5 (witness): the advisor applied to current 8.7.2, latest 11.2.0 with
only 10.1.0 available (the spec's gap-skip example). -/
theorem step_advisor_claim_witness :
    (parse_version "8.7.2").1 < (parse_version "11.2.0").1 ∧
    (((∃ v ∈ ["10.1.0"], isNextMajorOf "8.7.2" v) →
      _get_next_major_version "8.7.2" "11.2.0" ["10.1.0"] ∈ ["10.1.0"] ∧
      isNextMajorOf "8.7.2"
        (_get_next_major_version "8.7.2" "11.2.0" ["10.1.0"]) ∧
      (∀ v ∈ ["10.1.0"], isNextMajorOf "8.7.2" v →
        ltV3 (parse_version
            (_get_next_major_version "8.7.2" "11.2.0" ["10.1.0"]))
          (parse_version v) = false)) ∧
    ((∀ v ∈ ["10.1.0"], ¬ isNextMajorOf "8.7.2" v) →
      (∃ v ∈ ["10.1.0"], inHalfOpen "8.7.2" "11.2.0" v) →
      ((_get_next_major_version "8.7.2" "11.2.0" ["10.1.0"] ∈ ["10.1.0"] ∨
          _get_next_major_version "8.7.2" "11.2.0" ["10.1.0"] = "11.2.0") ∧
        inHalfOpen "8.7.2" "11.2.0"
          (_get_next_major_version "8.7.2" "11.2.0" ["10.1.0"]) ∧
        (∀ v ∈ ["10.1.0"], inHalfOpen "8.7.2" "11.2.0" v →
          ltV3 (parse_version v)
            (parse_version
              (_get_next_major_version "8.7.2" "11.2.0" ["10.1.0"])) =
            false))) ∧
    ((∀ v ∈ ["10.1.0"], ¬ isNextMajorOf "8.7.2" v) →
      (∀ v ∈ ["10.1.0"], ¬ inHalfOpen "8.7.2" "11.2.0" v) →
      _get_next_major_version "8.7.2" "11.2.0" ["10.1.0"] = "11.2.0")) :=
  ⟨by decide, step_advisor_claim "8.7.2" "11.2.0" ["10.1.0"] (by decide)⟩

/-! ## Claim theorems for the remediation executor -/

theorem processUnit_outcome (st : GitState) (u : UnitCase) :
    (processUnit st u).2 = unitOutcome u := by
  cases hf : u.fileExists <;> cases hp : u.patternFound <;>
    cases hpu : u.pushOk <;> cases hpr : u.prOk <;>
      simp [processUnit, unitOutcome, hf, hp, hpu, hpr]

theorem runUnits_outcomes : ∀ (us : List UnitCase) (st : GitState),
    (runUnits st us).2 = us.map unitOutcome := by
  intro us
  induction us with
  | nil => intro st; rfl
  | cons u us ih =>
    intro st
    simp only [runUnits, List.map_cons]
    rw [processUnit_outcome, ih]

/-- C6 (counterexample): a unit whose push fails after the edit was
committed ends checked out on master, but its feature branch is not deleted
locally (only a later run of the same unit replaces it), so the claim's
deleted-branch half is false. -/
theorem executor_push_fail_cex :
    ¬ (((processUnit { branch := "master", locals := ["master"] }
          { branchName := "autofix/helm-upgrade-velero-11-2-0",
            fileExists := true, patternFound := true, pushOk := false,
            prOk := true }).1.branch = "master") ∧
       ¬ ("autofix/helm-upgrade-velero-11-2-0" ∈
          (processUnit { branch := "master", locals := ["master"] }
            { branchName := "autofix/helm-upgrade-velero-11-2-0",
              fileExists := true, patternFound := true, pushOk := false,
              prOk := true }).1.locals)) := by
  decide

/-- C6 (amended): every unit whose push fails after the edit was committed
ends with the working tree checked out on the base branch master, with the
unit's feature branch still present locally, and the push failure recorded
as the unit's outcome. -/
theorem executor_push_fail_amended (st : GitState) (u : UnitCase)
    (h1 : u.fileExists = true) (h2 : u.patternFound = true)
    (h3 : u.pushOk = false) :
    (processUnit st u).1.branch = "master" ∧
    u.branchName ∈ (processUnit st u).1.locals ∧
    (processUnit st u).2 = UnitOutcome.pushFailed := by
  simp [processUnit, h1, h2, h3, gitCheckout, gitBranchDelete,
    gitCheckoutNew]

/-- C6 (witness): the amended rollback property on a concrete failing
unit. -/
theorem executor_push_fail_amended_witness :
    ({ branchName := "autofix/helm-major-upgrades", fileExists := true,
       patternFound := true, pushOk := false, prOk := true } :
        UnitCase).fileExists = true ∧
    ({ branchName := "autofix/helm-major-upgrades", fileExists := true,
       patternFound := true, pushOk := false, prOk := true } :
        UnitCase).patternFound = true ∧
    ({ branchName := "autofix/helm-major-upgrades", fileExists := true,
       patternFound := true, pushOk := false, prOk := true } :
        UnitCase).pushOk = false ∧
    ((processUnit { branch := "master", locals := ["master"] }
        { branchName := "autofix/helm-major-upgrades", fileExists := true,
          patternFound := true, pushOk := false,
          prOk := true }).1.branch = "master" ∧
      ({ branchName := "autofix/helm-major-upgrades", fileExists := true,
         patternFound := true, pushOk := false, prOk := true } :
          UnitCase).branchName ∈
        (processUnit { branch := "master", locals := ["master"] }
          { branchName := "autofix/helm-major-upgrades",
            fileExists := true, patternFound := true, pushOk := false,
            prOk := true }).1.locals ∧
      (processUnit { branch := "master", locals := ["master"] }
        { branchName := "autofix/helm-major-upgrades", fileExists := true,
          patternFound := true, pushOk := false, prOk := true }).2 =
        UnitOutcome.pushFailed) :=
  ⟨rfl, rfl, rfl,
    executor_push_fail_amended { branch := "master", locals := ["master"] }
      { branchName := "autofix/helm-major-upgrades", fileExists := true,
        patternFound := true, pushOk := false, prOk := true }
      rfl rfl rfl⟩

/-- C7: the executor records exactly one outcome per unit of work, each
unit's outcome is decided by that unit's own facts (missing file, missing
pattern, push rejection, PR-creation failure) so no failure aborts the
remaining units, and a step-mode version-listing failure (an empty fetched
list) falls back to the latest version and continues. -/
theorem executor_batch_claim (st : GitState) (us : List UnitCase) :
    (runUnits st us).2.length = us.length ∧
    (runUnits st us).2 = us.map unitOutcome ∧
    (∀ (sm : Bool) (gap : Int) (cur lat : String),
      stepNewVersion sm gap cur lat [] = lat) := by
  refine ⟨?_, runUnits_outcomes us st, ?_⟩
  · rw [runUnits_outcomes]
    simp
  · intro sm gap cur lat
    unfold stepNewVersion
    cases (sm && decide (gap > 1)) <;> simp
